import Mathlib

/-!
Shallow embedding of `theBot.py` (class `SemanticFormFiller`), a semantic
web-form auto-filler.  The sentence-transformer model is a black box: the
cosine similarity of the question embedding with a cached field-name
embedding is modelled as an abstract function into `Rat`.  The browser
driver is modelled by explicit environment records whose Boolean fields say
which driver calls raise; `Except Unit` plays the role of Python exceptions.
-/

namespace TheBot

instance {e a : Type} [DecidableEq e] [DecidableEq a] : DecidableEq (Except e a) := fun x y =>
  match x, y with
  | Except.ok u, Except.ok v =>
    if h : u = v then isTrue (by rw [h]) else isFalse (fun hc => h (Except.ok.inj hc))
  | Except.error u, Except.error v =>
    if h : u = v then isTrue (by rw [h]) else isFalse (fun hc => h (Except.error.inj hc))
  | Except.ok _, Except.error _ => isFalse (fun hc => Except.noConfusion hc)
  | Except.error _, Except.ok _ => isFalse (fun hc => Except.noConfusion hc)

/-! ## Matcher (`find_best_match`, lines 37-54) -/

/-- `max(similarities.items(), key=lambda x: x[1])`: the first pair with
maximal second component (Python `max` keeps the earlier element on ties);
`none` models the `ValueError` raised on an empty sequence. -/
def maxBySnd : List (String × Rat) → Option (String × Rat)
  | [] => none
  | x :: xs => some (xs.foldl (fun a y => if a.2 < y.2 then y else a) x)

/-- The `similarities` dict built in `find_best_match` (lines 43-46): one
score per cached field name, in insertion order.  `sim k` stands for
`util.pytorch_cos_sim(question_embedding, field_embedding).item()` for the
embedding cached under key `k`. -/
def similarities (sim : String → Rat) (field_names : List String) :
    List (String × Rat) :=
  field_names.map fun k => (k, sim k)

/-- `find_best_match` (lines 37-54).  `Except.error` models the `ValueError`
that `max` raises when the profile is empty. -/
def find_best_match (sim : String → Rat) (field_names : List String)
    (threshold : Rat) : Except Unit (Option String) :=
  match maxBySnd (similarities sim field_names) with
  | none => Except.error ()
  | some best => Except.ok (if threshold ≤ best.2 then some best.1 else none)

theorem foldlMax_mem (x : String × Rat) (xs : List (String × Rat)) :
    xs.foldl (fun a y => if a.2 < y.2 then y else a) x ∈ x :: xs := by
  induction xs generalizing x with
  | nil => simp
  | cons y ys ih =>
    simp only [List.foldl_cons]
    rcases List.mem_cons.mp (ih (if x.2 < y.2 then y else x)) with h1 | h1
    · rw [h1]
      split <;> simp
    · simp [h1]

theorem foldlMax_ge (x : String × Rat) (xs : List (String × Rat)) :
    ∀ z ∈ x :: xs, z.2 ≤ (xs.foldl (fun a y => if a.2 < y.2 then y else a) x).2 := by
  induction xs generalizing x with
  | nil =>
    intro z hz
    simp at hz
    simp [hz]
  | cons y ys ih =>
    intro z hz
    simp only [List.foldl_cons]
    have hx : x.2 ≤ (if x.2 < y.2 then y else x).2 := by
      by_cases h : x.2 < y.2
      · rw [if_pos h]
        exact le_of_lt h
      · rw [if_neg h]
    have hy : y.2 ≤ (if x.2 < y.2 then y else x).2 := by
      by_cases h : x.2 < y.2
      · rw [if_pos h]
      · rw [if_neg h]
        exact le_of_not_lt h
    have hstart : (if x.2 < y.2 then y else x).2 ≤
        (ys.foldl (fun a y => if a.2 < y.2 then y else a)
          (if x.2 < y.2 then y else x)).2 :=
      ih _ _ (List.mem_cons_self _ _)
    rcases List.mem_cons.mp hz with rfl | hz'
    · exact le_trans hx hstart
    · rcases List.mem_cons.mp hz' with rfl | hz''
      · exact le_trans hy hstart
      · exact ih _ z (List.mem_cons_of_mem _ hz'')

theorem maxBySnd_mem {l : List (String × Rat)} {m : String × Rat}
    (h : maxBySnd l = some m) : m ∈ l := by
  match l with
  | [] => simp [maxBySnd] at h
  | x :: xs =>
    simp only [maxBySnd, Option.some.injEq] at h
    rw [← h]
    exact foldlMax_mem x xs

theorem maxBySnd_ge {l : List (String × Rat)} {m : String × Rat}
    (h : maxBySnd l = some m) : ∀ z ∈ l, z.2 ≤ m.2 := by
  match l with
  | [] => simp [maxBySnd] at h
  | x :: xs =>
    simp only [maxBySnd, Option.some.injEq] at h
    rw [← h]
    exact foldlMax_ge x xs

theorem similarities_fst_mem {sim : String → Rat} {field_names : List String}
    {p : String × Rat} (h : p ∈ similarities sim field_names) :
    p.1 ∈ field_names ∧ p.2 = sim p.1 := by
  rcases List.mem_map.mp h with ⟨k, hk, hp⟩
  subst hp
  exact ⟨hk, rfl⟩

theorem similarities_mem_of {sim : String → Rat} {field_names : List String}
    {k : String} (h : k ∈ field_names) :
    (k, sim k) ∈ similarities sim field_names :=
  List.mem_map.mpr ⟨k, h, rfl⟩

/-- Claim C1: `find_best_match` scores the question against every cached
field-name embedding and returns the field with the maximum similarity when
that maximum is at least the threshold, and returns none otherwise; the
returned field is always an argmax of the similarity map. -/
theorem find_best_match_argmax (sim : String → Rat) (field_names : List String)
    (threshold : Rat) (h : field_names ≠ []) :
    (∃ f, find_best_match sim field_names threshold = Except.ok (some f) ∧
        f ∈ field_names ∧ (∀ k ∈ field_names, sim k ≤ sim f) ∧
        threshold ≤ sim f) ∨
    (find_best_match sim field_names threshold = Except.ok none ∧
        ∀ k ∈ field_names, sim k < threshold) := by
  cases hm : maxBySnd (similarities sim field_names) with
  | none =>
    exfalso
    cases hl : field_names with
    | nil => exact h hl
    | cons a as =>
      rw [hl] at hm
      simp [maxBySnd, similarities] at hm
  | some m =>
    have hmem := similarities_fst_mem (maxBySnd_mem hm)
    have hge : ∀ k ∈ field_names, sim k ≤ m.2 := by
      intro k hk
      have := maxBySnd_ge hm (k, sim k) (similarities_mem_of hk)
      simpa using this
    by_cases ht : threshold ≤ m.2
    · left
      refine ⟨m.1, ?_, hmem.1, ?_, ?_⟩
      · simp [find_best_match, hm, ht]
      · intro k hk
        rw [← hmem.2]
        exact hge k hk
      · rw [← hmem.2]
        exact ht
    · right
      constructor
      · simp [find_best_match, hm, ht]
      · intro k hk
        exact lt_of_le_of_lt (hge k hk) (lt_of_not_le ht)

/-- A concrete similarity assignment used by the sample applications of the
matcher theorems. -/
def demoSim : String → Rat := fun k => if k = "Full Name" then mkRat 9 10 else mkRat 1 10

theorem find_best_match_argmax_witness :
    ((["Full Name", "Birth Date"] : List String) ≠ []) ∧
    ((∃ f, find_best_match demoSim ["Full Name", "Birth Date"] (mkRat 1 2) =
          Except.ok (some f) ∧
        f ∈ ["Full Name", "Birth Date"] ∧
        (∀ k ∈ ["Full Name", "Birth Date"], demoSim k ≤ demoSim f) ∧
        (mkRat 1 2) ≤ demoSim f) ∨
      (find_best_match demoSim ["Full Name", "Birth Date"] (mkRat 1 2) =
          Except.ok none ∧
        ∀ k ∈ ["Full Name", "Birth Date"], demoSim k < (mkRat 1 2))) :=
  ⟨by decide,
   find_best_match_argmax demoSim ["Full Name", "Birth Date"] (mkRat 1 2) (by decide)⟩

/-- Claim C2: lowering the threshold preserves any match found at a higher
threshold (the selected argmax does not depend on the threshold; the
threshold only gates it). -/
theorem find_best_match_mono (sim : String → Rat) (field_names : List String)
    (t1 t2 : Rat) (f : String) (h12 : t1 ≤ t2)
    (h : find_best_match sim field_names t2 = Except.ok (some f)) :
    find_best_match sim field_names t1 = Except.ok (some f) := by
  unfold find_best_match at h ⊢
  cases hm : maxBySnd (similarities sim field_names) with
  | none =>
    rw [hm] at h
    exact absurd h (by simp)
  | some m =>
    simp only [hm] at h ⊢
    by_cases ht : t2 ≤ m.2
    · rw [if_pos ht] at h
      rw [if_pos (le_trans h12 ht)]
      exact h
    · rw [if_neg ht] at h
      simp at h

theorem find_best_match_mono_witness :
    ((mkRat 1 4) ≤ mkRat 1 2) ∧
    (find_best_match demoSim ["Full Name", "Birth Date"] (mkRat 1 2) =
      Except.ok (some "Full Name")) ∧
    find_best_match demoSim ["Full Name", "Birth Date"] (mkRat 1 4) =
      Except.ok (some "Full Name") :=
  ⟨by decide, by decide,
   find_best_match_mono demoSim ["Full Name", "Birth Date"] (mkRat 1 4) (mkRat 1 2)
     "Full Name" (by decide) (by decide)⟩

/-! ## Profile lookup (`self.form_data[best_match]`, line 365) -/

/-- Python dict lookup on the loaded profile. -/
def dictGet (key : String) : List (String × String) → Option String
  | [] => none
  | p :: rest => if key = p.1 then some p.2 else dictGet key rest

theorem dictGet_isSome_of_mem {key : String} {profile : List (String × String)}
    (h : key ∈ profile.map Prod.fst) : (dictGet key profile).isSome = true := by
  induction profile with
  | nil => simp at h
  | cons p ps ih =>
    by_cases hk : key = p.1
    · simp [dictGet, hk]
    · simp only [List.map_cons, List.mem_cons] at h
      rcases h with h | h
      · exact absurd h hk
      · simp [dictGet, hk, ih h]

/-- Claim C10: a non-none result of `find_best_match` is always one of the
keys the cached embeddings were built from (`create_field_embeddings`, lines
31-35, uses exactly `form_data.keys()`), so the orchestrator's subsequent
lookup `form_data[best_match]` always succeeds. -/
theorem find_best_match_key_safe (sim : String → Rat)
    (profile : List (String × String)) (threshold : Rat) (f : String)
    (h : find_best_match sim (profile.map Prod.fst) threshold =
      Except.ok (some f)) :
    (dictGet f profile).isSome = true := by
  unfold find_best_match at h
  cases hm : maxBySnd (similarities sim (profile.map Prod.fst)) with
  | none =>
    rw [hm] at h
    exact absurd h (by simp)
  | some m =>
    simp only [hm] at h
    by_cases ht : threshold ≤ m.2
    · rw [if_pos ht] at h
      have hf : m.1 = f := Option.some.inj (Except.ok.inj h)
      have hmem := (similarities_fst_mem (maxBySnd_mem hm)).1
      rw [hf] at hmem
      exact dictGet_isSome_of_mem hmem
    · rw [if_neg ht] at h
      simp at h

/-- The sample profile from the spec's end-to-end scenario. -/
def demoProfile : List (String × String) :=
  [("Full Name", "Ada Lovelace"), ("Birth Date", "12/10/1815")]

theorem find_best_match_key_safe_witness :
    (find_best_match demoSim (demoProfile.map Prod.fst) (mkRat 1 2) =
      Except.ok (some "Full Name")) ∧
    (dictGet "Full Name" demoProfile).isSome = true :=
  ⟨by decide,
   find_best_match_key_safe demoSim demoProfile (mkRat 1 2) "Full Name" (by decide)⟩

/-! ## Choice strategies: option selection shared by `fill_radio_field`
(lines 156-210) and `fill_dropdown_field` (lines 212-271).  The two source
functions repeat the same four-stage selection over the enumerated option
texts verbatim; it is embedded once below, returning the index of the
option that gets clicked. -/

/-- Python `str.lower()` (ASCII case folding suffices here). -/
def pyLower (s : String) : String := String.mk (s.data.map Char.toLower)

/-- Python `str.strip()`. -/
def pyStrip (s : String) : String :=
  String.mk (((s.data.dropWhile Char.isWhitespace).reverse.dropWhile
    Char.isWhitespace).reverse)

/-- `option.text.strip().lower()` as computed in every stage. -/
def procText (o : String) : String := pyLower (pyStrip o)

/-- Python substring test `needle in hay`, on character lists. -/
def isSubList (needle : List Char) : List Char → Bool
  | [] => needle.isEmpty
  | c :: rest => List.isPrefixOf needle (c :: rest) || isSubList needle rest

/-- Python `a in b` on strings. -/
def strIn (a b : String) : Bool := isSubList a.data b.data

/-- Stage 1 test: `value.lower() == option_text` (line 165 / 226). -/
def exactPred (value o : String) : Bool := pyLower value == procText o

/-- Stage 2 test: `value.lower() in option_text or option_text in
value.lower()` (line 172 / 233). -/
def partPred (value o : String) : Bool :=
  strIn (pyLower value) (procText o) || strIn (procText o) (pyLower value)

/-- Stage 3 test: cosine similarity of `option.text.strip()` and `value`
above the high-confidence threshold 0.7 (line 184 / 245). -/
def semPred (sim : String → String → Rat) (value o : String) : Bool :=
  decide (mkRat 7 10 < sim (pyStrip o) value)

/-- One stage's `for option in options:` scan, returning the index of the
first option passing the test. -/
def firstIdx (p : String → Bool) : List String → Nat → Option Nat
  | [], _ => none
  | o :: rest, i => if p o then some i else firstIdx p rest (i + 1)

/-- Stage 4's scan (lines 189-201 / 250-262): `best_match`/`best_similarity`
start at `None`/`0` and are replaced on strictly greater similarity. -/
def bestLoop (score : String → Rat) :
    List String → Nat → Option Nat → Rat → Option Nat × Rat
  | [], _, best_match, best_similarity => (best_match, best_similarity)
  | o :: rest, i, best_match, best_similarity =>
    if best_similarity < score o then bestLoop score rest (i + 1) (some i) (score o)
    else bestLoop score rest (i + 1) best_match best_similarity

/-- The four-stage option selection of `fill_radio_field` /
`fill_dropdown_field`: exact match, then partial match, then semantic match
above 0.7, then the best-scoring option provided its score exceeds 0.5;
`none` when no stage selects (the function then returns False). -/
def fill_choice (sim : String → String → Rat) (options : List String)
    (value : String) : Option Nat :=
  match firstIdx (exactPred value) options 0 with
  | some i => some i
  | none =>
  match firstIdx (partPred value) options 0 with
  | some i => some i
  | none =>
  match firstIdx (semPred sim value) options 0 with
  | some i => some i
  | none =>
    match bestLoop (fun o => sim (pyStrip o) value) options 0 none 0 with
    | (some i, best_similarity) =>
      if mkRat 1 2 < best_similarity then some i else none
    | (none, _) => none

theorem firstIdx_eq_none {p : String → Bool} {l : List String}
    (h : ∀ o ∈ l, p o = false) (i : Nat) : firstIdx p l i = none := by
  induction l generalizing i with
  | nil => rfl
  | cons o rest ih =>
    have hp := h o (List.mem_cons_self _ _)
    simp only [firstIdx, hp]
    simp only [Bool.false_eq_true, if_false]
    exact ih (fun o2 ho2 => h o2 (List.mem_cons_of_mem _ ho2)) (i + 1)

theorem firstIdx_isSome {p : String → Bool} {l : List String}
    (h : ∃ o ∈ l, p o = true) (i : Nat) : (firstIdx p l i).isSome = true := by
  induction l generalizing i with
  | nil => simp at h
  | cons o rest ih =>
    by_cases hp : p o = true
    · simp [firstIdx, hp]
    · have hp2 : p o = false := by
        cases hb : p o
        · rfl
        · exact absurd hb hp
      simp only [firstIdx, hp2, Bool.false_eq_true, if_false]
      apply ih
      rcases h with ⟨o2, ho2, hpo2⟩
      rcases List.mem_cons.mp ho2 with rfl | h2
      · exact absurd hpo2 hp
      · exact ⟨o2, h2, hpo2⟩

theorem firstIdx_some {p : String → Bool} {l : List String} {i k : Nat}
    (h : firstIdx p l i = some k) :
    ∃ j o, l.get? j = some o ∧ p o = true ∧ k = i + j ∧
      ∀ j2 o2, j2 < j → l.get? j2 = some o2 → p o2 = false := by
  induction l generalizing i with
  | nil => simp [firstIdx] at h
  | cons o rest ih =>
    by_cases hp : p o = true
    · refine ⟨0, o, rfl, hp, ?_, ?_⟩
      · simp [firstIdx, hp] at h
        omega
      · intro j2 o2 hj2 hg2
        omega
    · have hp2 : p o = false := by
        cases hb : p o
        · rfl
        · exact absurd hb hp
      simp only [firstIdx, hp2, Bool.false_eq_true, if_false] at h
      obtain ⟨j, o2, hg, hpo, hk, hmin⟩ := ih h
      refine ⟨j + 1, o2, by simpa using hg, hpo, by omega, ?_⟩
      intro j2 o3 hj2 hg2
      cases j2 with
      | zero =>
        simp at hg2
        rw [← hg2]
        exact hp2
      | succ j3 =>
        refine hmin j3 o3 (by omega) ?_
        simpa using hg2

theorem bestLoop_ge_start (score : String → Rat) (l : List String) :
    ∀ (i : Nat) (bm : Option Nat) (bs : Rat),
      bs ≤ (bestLoop score l i bm bs).2 := by
  induction l with
  | nil =>
    intro i bm bs
    simp [bestLoop]
  | cons o rest ih =>
    intro i bm bs
    by_cases hc : bs < score o
    · simp only [bestLoop, if_pos hc]
      exact le_trans (le_of_lt hc) (ih (i + 1) (some i) (score o))
    · simp only [bestLoop, if_neg hc]
      exact ih (i + 1) bm bs

theorem bestLoop_ge (score : String → Rat) (l : List String) :
    ∀ (i : Nat) (bm : Option Nat) (bs : Rat),
      ∀ o ∈ l, score o ≤ (bestLoop score l i bm bs).2 := by
  induction l with
  | nil =>
    intro i bm bs o ho
    simp at ho
  | cons x rest ih =>
    intro i bm bs o ho
    rcases List.mem_cons.mp ho with rfl | ho2
    · by_cases hc : bs < score o
      · simp only [bestLoop, if_pos hc]
        exact bestLoop_ge_start score rest (i + 1) (some i) (score o)
      · simp only [bestLoop, if_neg hc]
        exact le_trans (le_of_not_lt hc) (bestLoop_ge_start score rest (i + 1) bm bs)
    · by_cases hc : bs < score x
      · simp only [bestLoop, if_pos hc]
        exact ih (i + 1) (some i) (score x) o ho2
      · simp only [bestLoop, if_neg hc]
        exact ih (i + 1) bm bs o ho2

theorem bestLoop_cases (score : String → Rat) (l : List String) :
    ∀ (i : Nat) (bm : Option Nat) (bs : Rat),
      bestLoop score l i bm bs = (bm, bs) ∨
      ∃ j o, l.get? j = some o ∧
        bestLoop score l i bm bs = (some (i + j), score o) ∧ bs < score o := by
  induction l with
  | nil =>
    intro i bm bs
    left
    rfl
  | cons x rest ih =>
    intro i bm bs
    by_cases hc : bs < score x
    · simp only [bestLoop, if_pos hc]
      rcases ih (i + 1) (some i) (score x) with h | ⟨j, o, hg, he, hlt⟩
      · right
        refine ⟨0, x, rfl, ?_, hc⟩
        rw [h]
        simp
      · right
        refine ⟨j + 1, o, by simpa using hg, ?_, lt_trans hc hlt⟩
        have hadd : i + 1 + j = i + (j + 1) := by omega
        rw [he, hadd]
    · simp only [bestLoop, if_neg hc]
      rcases ih (i + 1) bm bs with h | ⟨j, o, hg, he, hlt⟩
      · left
        exact h
      · right
        refine ⟨j + 1, o, by simpa using hg, ?_, hlt⟩
        have hadd : i + 1 + j = i + (j + 1) := by omega
        rw [he, hadd]

/-- Claim C3: the four stages run exhaustively and in order, for every
similarity assignment: a case-insensitive exact equality anywhere in the
option list pre-empts every partial and semantic stage (the selected option
is the first exactly-matching one), and with no exact match anywhere, a
case-insensitive containment match anywhere pre-empts every semantic stage
(the selected option is the first partially-matching one). -/
theorem choice_stage_order (sim : String → String → Rat)
    (options : List String) (value : String) :
    ((∃ o ∈ options, exactPred value o = true) →
      ∃ j o, options.get? j = some o ∧ exactPred value o = true ∧
        (∀ j2 o2, j2 < j → options.get? j2 = some o2 →
          exactPred value o2 = false) ∧
        fill_choice sim options value = some j) ∧
    ((∀ o ∈ options, exactPred value o = false) →
      (∃ o ∈ options, partPred value o = true) →
      ∃ j o, options.get? j = some o ∧ partPred value o = true ∧
        (∀ j2 o2, j2 < j → options.get? j2 = some o2 →
          partPred value o2 = false) ∧
        fill_choice sim options value = some j) := by
  constructor
  · intro h
    have hs := firstIdx_isSome (p := exactPred value) h 0
    cases hk : firstIdx (exactPred value) options 0 with
    | none =>
      rw [hk] at hs
      simp at hs
    | some k =>
      obtain ⟨j, o, hg, hpo, hkj, hmin⟩ := firstIdx_some hk
      refine ⟨j, o, hg, hpo, hmin, ?_⟩
      simp only [fill_choice, hk]
      rw [hkj]
      simp
  · intro hne h
    have hfe : firstIdx (exactPred value) options 0 = none :=
      firstIdx_eq_none hne 0
    have hs := firstIdx_isSome (p := partPred value) h 0
    cases hk : firstIdx (partPred value) options 0 with
    | none =>
      rw [hk] at hs
      simp at hs
    | some k =>
      obtain ⟨j, o, hg, hpo, hkj, hmin⟩ := firstIdx_some hk
      refine ⟨j, o, hg, hpo, hmin, ?_⟩
      simp only [fill_choice, hfe, hk]
      rw [hkj]
      simp

/-- A constant high similarity: used to show semantic scores can pre-empt
neither an exact nor a partial match. -/
def demoChoiceSim : String → String → Rat := fun _ _ => mkRat 9 10

theorem choice_stage_order_witness :
    (((∃ o ∈ (["Red", "Crimson", "Blue"] : List String),
        exactPred "Red" o = true) →
      ∃ j o, (["Red", "Crimson", "Blue"] : List String).get? j = some o ∧
        exactPred "Red" o = true ∧
        (∀ j2 o2, j2 < j →
          (["Red", "Crimson", "Blue"] : List String).get? j2 = some o2 →
          exactPred "Red" o2 = false) ∧
        fill_choice demoChoiceSim ["Red", "Crimson", "Blue"] "Red" = some j) ∧
    ((∀ o ∈ (["Red", "Crimson", "Blue"] : List String),
        exactPred "Red" o = false) →
      (∃ o ∈ (["Red", "Crimson", "Blue"] : List String),
        partPred "Red" o = true) →
      ∃ j o, (["Red", "Crimson", "Blue"] : List String).get? j = some o ∧
        partPred "Red" o = true ∧
        (∀ j2 o2, j2 < j →
          (["Red", "Crimson", "Blue"] : List String).get? j2 = some o2 →
          partPred "Red" o2 = false) ∧
        fill_choice demoChoiceSim ["Red", "Crimson", "Blue"] "Red" = some j)) ∧
    ((∀ o ∈ (["Dark Red", "Blue"] : List String),
        exactPred "Red" o = false) ∧
      (∃ o ∈ (["Dark Red", "Blue"] : List String), partPred "Red" o = true) ∧
      fill_choice demoChoiceSim ["Dark Red", "Blue"] "Red" = some 0) :=
  ⟨choice_stage_order demoChoiceSim ["Red", "Crimson", "Blue"] "Red",
   by decide, by decide, by decide⟩

/-- Claim C4: with no exact and no partial match, selection happens via the
semantic stage only when some option scores above 0.7 (the first such
option); otherwise via the best-score stage only when the best score exceeds
0.5 (an option of maximal score); otherwise nothing is selected. -/
theorem choice_fallback (sim : String → String → Rat) (options : List String)
    (value : String)
    (hne : ∀ o ∈ options, exactPred value o = false)
    (hnp : ∀ o ∈ options, partPred value o = false) :
    ((∃ o ∈ options, mkRat 7 10 < sim (pyStrip o) value) →
      ∃ j o, options.get? j = some o ∧ mkRat 7 10 < sim (pyStrip o) value ∧
        fill_choice sim options value = some j) ∧
    ((∀ o ∈ options, sim (pyStrip o) value ≤ mkRat 7 10) →
      (∃ o ∈ options, mkRat 1 2 < sim (pyStrip o) value) →
      ∃ j o, options.get? j = some o ∧ mkRat 1 2 < sim (pyStrip o) value ∧
        (∀ o2 ∈ options, sim (pyStrip o2) value ≤ sim (pyStrip o) value) ∧
        fill_choice sim options value = some j) ∧
    ((∀ o ∈ options, sim (pyStrip o) value ≤ mkRat 1 2) →
      fill_choice sim options value = none) := by
  have hfe : firstIdx (exactPred value) options 0 = none := firstIdx_eq_none hne 0
  have hfp : firstIdx (partPred value) options 0 = none := firstIdx_eq_none hnp 0
  refine ⟨?_, ?_, ?_⟩
  · intro hex
    have hex2 : ∃ o ∈ options, semPred sim value o = true := by
      obtain ⟨o, ho, hlt⟩ := hex
      exact ⟨o, ho, by simpa [semPred] using hlt⟩
    have hs := firstIdx_isSome hex2 0
    cases hk : firstIdx (semPred sim value) options 0 with
    | none =>
      rw [hk] at hs
      simp at hs
    | some k =>
      obtain ⟨j, o, hg, hpo, hkj, hmin⟩ := firstIdx_some hk
      refine ⟨j, o, hg, by simpa [semPred] using hpo, ?_⟩
      simp only [fill_choice, hfe, hfp, hk]
      rw [hkj]
      simp
  · intro hle hgt
    have hfs : firstIdx (semPred sim value) options 0 = none := by
      apply firstIdx_eq_none
      intro o ho
      simp only [semPred, decide_eq_false_iff_not, not_lt]
      exact hle o ho
    obtain ⟨o0, ho0, hgt0⟩ := hgt
    rcases bestLoop_cases (fun o => sim (pyStrip o) value) options 0 none 0
      with hcase | ⟨j, o, hg, he, hlt⟩
    · exfalso
      have hb := bestLoop_ge (fun o => sim (pyStrip o) value) options 0 none 0 o0 ho0
      rw [hcase] at hb
      simp at hb
      have : mkRat 1 2 < (0 : Rat) := lt_of_lt_of_le hgt0 hb
      norm_num [mkRat] at this
    · have hb0 := bestLoop_ge (fun o => sim (pyStrip o) value) options 0 none 0 o0 ho0
      rw [he] at hb0
      simp at hb0
      have hhalf : mkRat 1 2 < sim (pyStrip o) value := lt_of_lt_of_le hgt0 hb0
      refine ⟨j, o, hg, hhalf, ?_, ?_⟩
      · intro o2 ho2
        have hb2 := bestLoop_ge (fun o => sim (pyStrip o) value) options 0 none 0 o2 ho2
        rw [he] at hb2
        simpa using hb2
      · simp only [fill_choice, hfe, hfp, hfs, he]
        rw [if_pos hhalf]
        simp
  · intro hle
    have hfs : firstIdx (semPred sim value) options 0 = none := by
      apply firstIdx_eq_none
      intro o ho
      simp only [semPred, decide_eq_false_iff_not, not_lt]
      refine le_trans (hle o ho) ?_
      norm_num [mkRat]
    rcases bestLoop_cases (fun o => sim (pyStrip o) value) options 0 none 0
      with hcase | ⟨j, o, hg, he, hlt⟩
    · simp only [fill_choice, hfe, hfp, hfs, hcase]
    · have ho : o ∈ options := List.get?_mem hg
      have hmax := hle o ho
      simp only [fill_choice, hfe, hfp, hfs, he]
      rw [if_neg (not_lt.mpr hmax)]

/-- A similarity assignment with no score above 0.7 and one above 0.5. -/
def demoFallbackSim : String → String → Rat :=
  fun o _ => if o = "Vermillion" then mkRat 3 5 else mkRat 1 5

theorem choice_fallback_witness :
    (∀ o ∈ (["Vermillion", "Azure"] : List String),
      exactPred "Red" o = false) ∧
    (∀ o ∈ (["Vermillion", "Azure"] : List String),
      partPred "Red" o = false) ∧
    (((∃ o ∈ (["Vermillion", "Azure"] : List String),
        mkRat 7 10 < demoFallbackSim (pyStrip o) "Red") →
      ∃ j o, (["Vermillion", "Azure"] : List String).get? j = some o ∧
        mkRat 7 10 < demoFallbackSim (pyStrip o) "Red" ∧
        fill_choice demoFallbackSim ["Vermillion", "Azure"] "Red" = some j) ∧
    ((∀ o ∈ (["Vermillion", "Azure"] : List String),
        demoFallbackSim (pyStrip o) "Red" ≤ mkRat 7 10) →
      (∃ o ∈ (["Vermillion", "Azure"] : List String),
        mkRat 1 2 < demoFallbackSim (pyStrip o) "Red") →
      ∃ j o, (["Vermillion", "Azure"] : List String).get? j = some o ∧
        mkRat 1 2 < demoFallbackSim (pyStrip o) "Red" ∧
        (∀ o2 ∈ (["Vermillion", "Azure"] : List String),
          demoFallbackSim (pyStrip o2) "Red" ≤ demoFallbackSim (pyStrip o) "Red") ∧
        fill_choice demoFallbackSim ["Vermillion", "Azure"] "Red" = some j) ∧
    ((∀ o ∈ (["Vermillion", "Azure"] : List String),
        demoFallbackSim (pyStrip o) "Red" ≤ mkRat 1 2) →
      fill_choice demoFallbackSim ["Vermillion", "Azure"] "Red" = none)) :=
  ⟨by decide, by decide,
   choice_fallback demoFallbackSim ["Vermillion", "Azure"] "Red"
     (by decide) (by decide)⟩

/-! ## Widget classification (`get_field_type`, lines 73-98) -/

/-- The observable widget kinds returned by `get_field_type`. -/
inductive FieldType
  | radio
  | checkbox
  | date
  | dropdown
  | textarea
  | text
deriving DecidableEq

/-- A question container, reduced to which marker sub-elements the probes
find, plus whether probing raises (the bare `except:` at line 97). -/
structure Container where
  hasRadio : Bool
  hasCheckbox : Bool
  hasDateInput : Bool
  hasListbox : Bool
  hasTextarea : Bool
  hasTextInput : Bool
  probeRaises : Bool
deriving DecidableEq

/-- `get_field_type` (lines 73-98): structural checks in source order; both
the final text-input check and the default return "text". -/
def get_field_type (c : Container) : FieldType :=
  if c.probeRaises then FieldType.text
  else if c.hasRadio then FieldType.radio
  else if c.hasCheckbox then FieldType.checkbox
  else if c.hasDateInput then FieldType.date
  else if c.hasListbox then FieldType.dropdown
  else if c.hasTextarea then FieldType.textarea
  else if c.hasTextInput then FieldType.text
  else FieldType.text

/-- The fixed priority list of (marker present, resulting type) pairs named
by the spec. -/
def markerTable (c : Container) : List (Bool × FieldType) :=
  [(c.hasRadio, FieldType.radio), (c.hasCheckbox, FieldType.checkbox),
   (c.hasDateInput, FieldType.date), (c.hasListbox, FieldType.dropdown),
   (c.hasTextarea, FieldType.textarea), (c.hasTextInput, FieldType.text)]

/-- Spec-side reformulation of the classifier: the first type in the
priority list whose marker is present, defaulting to text, with any probing
exception also yielding text. -/
def classify_spec (c : Container) : FieldType :=
  if c.probeRaises then FieldType.text
  else
    match (markerTable c).find? (fun m => m.1) with
    | some m => m.2
    | none => FieldType.text

/-- Claim C5: `get_field_type` checks the structural markers in the fixed
priority order radio, checkbox, date, listbox, textarea, text input and
returns the first present one (default text); a container holding both a
radio marker and a text input classifies as radio, and a probing exception
yields text. -/
theorem classify_priority (c : Container) :
    get_field_type c = classify_spec c ∧
    (c.probeRaises = false → c.hasRadio = true →
      get_field_type c = FieldType.radio) ∧
    (c.probeRaises = true → get_field_type c = FieldType.text) := by
  rcases c with ⟨r, cb, di, lb, ta, ti, pr⟩
  cases pr <;> cases r <;> cases cb <;> cases di <;> cases lb <;> cases ta <;>
    cases ti <;> decide

theorem classify_priority_witness :
    get_field_type ⟨true, false, false, false, false, true, false⟩ =
      FieldType.radio :=
  (classify_priority ⟨true, false, false, false, false, true, false⟩).2.1 rfl rfl

/-! ## Date strategy (`fill_date_field`, lines 100-154) -/

/-- Day count per month with the Gregorian leap rule, as `datetime`
validates it. -/
def daysInMonth (year month : Nat) : Nat :=
  if month = 2 then
    (if year % 4 = 0 ∧ (year % 100 ≠ 0 ∨ year % 400 = 0) then 29 else 28)
  else if month = 4 ∨ month = 6 ∨ month = 9 ∨ month = 11 then 30
  else 31

/-- All characters are ASCII digits. -/
def allDigits (cs : List Char) : Bool := cs.all Char.isDigit

/-- Numeric value of a digit list. -/
def digitsVal (cs : List Char) : Nat :=
  cs.foldl (fun n c => n * 10 + (c.toNat - 48)) 0

/-- One numeric field of `strptime`: between `minLen` and `maxLen` digits
(`%m`/`%d` accept 1-2 digits; `%Y` matches exactly four digits,
`\d\d\d\d` in CPython's `_strptime.py`). -/
def parseField (cs : List Char) (minLen maxLen : Nat) : Option Nat :=
  if minLen ≤ cs.length ∧ cs.length ≤ maxLen ∧ allDigits cs then
    some (digitsVal cs)
  else none

/-- Split a character list on the literal slashes of the format. -/
def splitSlash : List Char → List (List Char)
  | [] => [[]]
  | c :: rest =>
    if c = '/' then [] :: splitSlash rest
    else
      match splitSlash rest with
      | h :: t => (c :: h) :: t
      | [] => [[c]]

/-- `datetime.strptime(date_str, "%m/%d/%Y")` (line 104), returning
`(month, day, year)`; `none` models the `ValueError` on any malformed or
out-of-range date. -/
def parse_date (s : String) : Option (Nat × Nat × Nat) :=
  match splitSlash s.data with
  | [ms, ds, ys] =>
    match parseField ms 1 2, parseField ds 1 2, parseField ys 4 4 with
    | some m, some d, some y =>
      if 1 ≤ m ∧ m ≤ 12 ∧ 1 ≤ y ∧ 1 ≤ d ∧ d ≤ daysInMonth y m
      then some (m, d, y) else none
    | _, _, _ => none
  | _ => none

/-- `str(n).zfill(2)`, also the zero-padded `%m`/`%d` of `strftime`. -/
def pad2 (n : Nat) : String := if n < 10 then "0" ++ Nat.repr n else Nat.repr n

/-- `date_obj.strftime("%Y-%m-%d")` (line 110); `%Y` is modelled as the
unpadded decimal year, matching CPython on glibc. -/
def format_date (m d y : Nat) : String :=
  Nat.repr y ++ "-" ++ pad2 m ++ "-" ++ pad2 d

/-- The three injection techniques of `fill_date_field`, in source order. -/
inductive Technique
  | direct
  | segmented
  | script
deriving DecidableEq

/-- Which driver calls succeed while filling a date field. -/
structure DateEnv where
  hasDateInput : Bool
  clearOk : Bool
  directOk : Bool
  segmentedOk : Bool
  scriptOk : Bool
deriving DecidableEq

/-- Body of `fill_date_field` inside its outer `try` (lines 102-150): parse,
locate the input, clear it, then attempt the three techniques in order, each
swallowed failure falling through to the next.  The payload records which
technique succeeded and the value it injected (the segmented technique types
`str(year)`, TAB, `str(month).zfill(2)`, TAB, `str(day).zfill(2)`, which
assembles to the same value).  `Except.error` is an exception reaching the
outer handler. -/
def date_body (env : DateEnv) (date_str : String) :
    Except Unit (Bool × Option (Technique × String)) :=
  match parse_date date_str with
  | none => Except.error ()
  | some (m, d, y) =>
    if !env.hasDateInput then Except.error ()
    else if !env.clearOk then Except.error ()
    else if env.directOk then
      Except.ok (true, some (Technique.direct, format_date m d y))
    else if env.segmentedOk then
      Except.ok (true, some (Technique.segmented,
        Nat.repr y ++ "-" ++ pad2 m ++ "-" ++ pad2 d))
    else if env.scriptOk then
      Except.ok (true, some (Technique.script, format_date m d y))
    else Except.ok (false, none)

/-- `fill_date_field` as the caller sees it: the outer `except` (lines
152-154) turns any escaped exception into False. -/
def fill_date_field (env : DateEnv) (date_str : String) :
    Bool × Option (Technique × String) :=
  match date_body env date_str with
  | Except.ok r => r
  | Except.error _ => (false, none)

/-- Claim C6: a month/day/year value is reformatted to year-month-day, and
that formatted value is identical whichever of the three techniques ends up
succeeding; the techniques are attempted in the fixed order direct,
segmented, script, and (given the input field is reachable) only exhausting
all three yields False. -/
theorem date_roundtrip (env : DateEnv) (date_str : String) (m d y : Nat)
    (hp : parse_date date_str = some (m, d, y))
    (hin : env.hasDateInput = true) (hcl : env.clearOk = true) :
    (env.directOk = true →
      fill_date_field env date_str =
        (true, some (Technique.direct, format_date m d y))) ∧
    (env.directOk = false → env.segmentedOk = true →
      fill_date_field env date_str =
        (true, some (Technique.segmented, format_date m d y))) ∧
    (env.directOk = false → env.segmentedOk = false → env.scriptOk = true →
      fill_date_field env date_str =
        (true, some (Technique.script, format_date m d y))) ∧
    (env.directOk = false → env.segmentedOk = false → env.scriptOk = false →
      fill_date_field env date_str = (false, none)) ∧
    (∀ t v, (fill_date_field env date_str).2 = some (t, v) →
      v = format_date m d y) := by
  refine ⟨?_, ?_, ?_, ?_, ?_⟩
  · intro h1
    simp [fill_date_field, date_body, hp, hin, hcl, h1]
  · intro h1 h2
    simp [fill_date_field, date_body, hp, hin, hcl, h1, h2, format_date]
  · intro h1 h2 h3
    simp [fill_date_field, date_body, hp, hin, hcl, h1, h2, h3]
  · intro h1 h2 h3
    simp [fill_date_field, date_body, hp, hin, hcl, h1, h2, h3]
  · intro t v hv
    by_cases h1 : env.directOk = true
    · simp [fill_date_field, date_body, hp, hin, hcl, h1] at hv
      exact hv.2.symm
    · have h1f : env.directOk = false := by
        cases hb : env.directOk
        · rfl
        · exact absurd hb h1
      by_cases h2 : env.segmentedOk = true
      · simp [fill_date_field, date_body, hp, hin, hcl, h1f, h2, format_date] at hv
        rw [← hv.2]
        rfl
      · have h2f : env.segmentedOk = false := by
          cases hb : env.segmentedOk
          · rfl
          · exact absurd hb h2
        by_cases h3 : env.scriptOk = true
        · simp [fill_date_field, date_body, hp, hin, hcl, h1f, h2f, h3] at hv
          exact hv.2.symm
        · have h3f : env.scriptOk = false := by
            cases hb : env.scriptOk
            · rfl
            · exact absurd hb h3
          simp [fill_date_field, date_body, hp, hin, hcl, h1f, h2f, h3f] at hv

/-- A date environment where the direct technique fails and the segmented
keyboard technique succeeds. -/
def demoDateEnv : DateEnv := ⟨true, true, false, true, false⟩

theorem date_roundtrip_witness :
    parse_date "03/07/2024" = some (3, 7, 2024) ∧
    format_date 3 7 2024 = "2024-03-07" ∧
    demoDateEnv.hasDateInput = true ∧ demoDateEnv.clearOk = true ∧
    ((demoDateEnv.directOk = true →
      fill_date_field demoDateEnv "03/07/2024" =
        (true, some (Technique.direct, format_date 3 7 2024))) ∧
    (demoDateEnv.directOk = false → demoDateEnv.segmentedOk = true →
      fill_date_field demoDateEnv "03/07/2024" =
        (true, some (Technique.segmented, format_date 3 7 2024))) ∧
    (demoDateEnv.directOk = false → demoDateEnv.segmentedOk = false →
      demoDateEnv.scriptOk = true →
      fill_date_field demoDateEnv "03/07/2024" =
        (true, some (Technique.script, format_date 3 7 2024))) ∧
    (demoDateEnv.directOk = false → demoDateEnv.segmentedOk = false →
      demoDateEnv.scriptOk = false →
      fill_date_field demoDateEnv "03/07/2024" = (false, none)) ∧
    (∀ t v, (fill_date_field demoDateEnv "03/07/2024").2 = some (t, v) →
      v = format_date 3 7 2024)) :=
  ⟨by decide, by decide, rfl, rfl,
   date_roundtrip demoDateEnv "03/07/2024" 3 7 2024 (by decide) rfl rfl⟩

/-! ## Text strategy (`fill_text_field`, lines 273-295) -/

/-- Driver behaviour while filling a text field.  `found i` says whether the
i-th selector of `input_types` (0 = `input[@type='text']`, 1 = any `input`,
2 = `textarea`) locates an element; `interactRaises i` says whether
`clear()`/`send_keys()` on that element raises something other than
`NoSuchElementException`. -/
structure TextEnv where
  found : Nat → Bool
  interactRaises : Nat → Bool

/-- The `for input_type in input_types:` loop (lines 283-290): a selector
that finds nothing raises `NoSuchElementException`, which is caught and the
loop continues; a found element is cleared and written, returning True; any
other exception escapes to the outer handler. -/
def text_loop (env : TextEnv) (value : String) :
    List Nat → Except Unit (Bool × Option (Nat × String))
  | [] => Except.ok (false, none)
  | i :: rest =>
    if env.found i then
      if env.interactRaises i then Except.error ()
      else Except.ok (true, some (i, value))
    else text_loop env value rest

/-- Body of `fill_text_field` inside its outer `try`. -/
def text_body (env : TextEnv) (value : String) :
    Except Unit (Bool × Option (Nat × String)) :=
  text_loop env value [0, 1, 2]

/-- `fill_text_field` as the caller sees it: the outer `except` (lines
293-295) turns any escaped exception into False. -/
def fill_text_field (env : TextEnv) (value : String) :
    Bool × Option (Nat × String) :=
  match text_body env value with
  | Except.ok r => r
  | Except.error _ => (false, none)

/-- The first selector (in the fixed probe order) that locates an element. -/
def firstSelectorFound (env : TextEnv) : Option Nat :=
  if env.found 0 then some 0
  else if env.found 1 then some 1
  else if env.found 2 then some 2
  else none

theorem bool_eq_false {b : Bool} (h : ¬b = true) : b = false := by
  cases b
  · rfl
  · exact absurd rfl h

/-- Claim C9 counterexample: the first selector locates an element, yet the
strategy returns False, because clearing/typing raises and the outer handler
swallows the exception — so False does not imply that no selector located an
element. -/
def stuckTextEnv : TextEnv :=
  ⟨fun i => decide (i = 0), fun i => decide (i = 0)⟩

theorem text_false_counterexample :
    stuckTextEnv.found 0 = true ∧
    fill_text_field stuckTextEnv "Ada" = (false, none) :=
  ⟨rfl, rfl⟩

/-- Claim C9 (amended): the candidate selectors are probed in the fixed
order text-typed input, any input, textarea; the first element found is
cleared and written, returning True, provided the interaction does not
raise; the strategy returns False when no selector locates an element, and
also when the interaction with the first found element raises (the outer
handler swallows the exception). -/
theorem text_probe_order (env : TextEnv) (value : String) :
    (firstSelectorFound env = none →
      fill_text_field env value = (false, none)) ∧
    (∀ i, firstSelectorFound env = some i → env.interactRaises i = false →
      fill_text_field env value = (true, some (i, value))) ∧
    (∀ i, firstSelectorFound env = some i → env.interactRaises i = true →
      fill_text_field env value = (false, none)) := by
  by_cases h0 : env.found 0 = true
  · refine ⟨?_, ?_, ?_⟩
    · intro hn
      simp [firstSelectorFound, h0] at hn
    · intro i hi hr
      simp [firstSelectorFound, h0] at hi
      subst hi
      simp [fill_text_field, text_body, text_loop, h0, hr]
    · intro i hi hr
      simp [firstSelectorFound, h0] at hi
      subst hi
      simp [fill_text_field, text_body, text_loop, h0, hr]
  · have h0f := bool_eq_false h0
    by_cases h1 : env.found 1 = true
    · refine ⟨?_, ?_, ?_⟩
      · intro hn
        simp [firstSelectorFound, h0f, h1] at hn
      · intro i hi hr
        simp [firstSelectorFound, h0f, h1] at hi
        subst hi
        simp [fill_text_field, text_body, text_loop, h0f, h1, hr]
      · intro i hi hr
        simp [firstSelectorFound, h0f, h1] at hi
        subst hi
        simp [fill_text_field, text_body, text_loop, h0f, h1, hr]
    · have h1f := bool_eq_false h1
      by_cases h2 : env.found 2 = true
      · refine ⟨?_, ?_, ?_⟩
        · intro hn
          simp [firstSelectorFound, h0f, h1f, h2] at hn
        · intro i hi hr
          simp [firstSelectorFound, h0f, h1f, h2] at hi
          subst hi
          simp [fill_text_field, text_body, text_loop, h0f, h1f, h2, hr]
        · intro i hi hr
          simp [firstSelectorFound, h0f, h1f, h2] at hi
          subst hi
          simp [fill_text_field, text_body, text_loop, h0f, h1f, h2, hr]
      · have h2f := bool_eq_false h2
        refine ⟨?_, ?_, ?_⟩
        · intro hn
          simp [fill_text_field, text_body, text_loop, h0f, h1f, h2f]
        · intro i hi hr
          simp [firstSelectorFound, h0f, h1f, h2f] at hi
        · intro i hi hr
          simp [firstSelectorFound, h0f, h1f, h2f] at hi

/-- A text environment in which every selector finds an element and no
interaction raises. -/
def okTextEnv : TextEnv := ⟨fun _ => true, fun _ => false⟩

theorem text_probe_order_witness :
    firstSelectorFound okTextEnv = some 0 ∧
    okTextEnv.interactRaises 0 = false ∧
    fill_text_field okTextEnv "Ada Lovelace" =
      (true, some (0, "Ada Lovelace")) :=
  ⟨rfl, rfl, (text_probe_order okTextEnv "Ada Lovelace").2.1 0 rfl rfl⟩

/-! ## Radio / dropdown strategies as the caller sees them -/

/-- Driver behaviour while filling a radio field: enumerating the options'
text may raise, and clicking the selected option may raise. -/
structure ChoiceEnv where
  enumRaises : Bool
  clickRaises : Nat → Bool

/-- Body of `fill_radio_field` inside its outer `try` (lines 158-207):
enumerate the options, run the four-stage selection, click the chosen
option. -/
def radio_body (sim : String → String → Rat) (env : ChoiceEnv)
    (options : List String) (value : String) : Except Unit Bool :=
  if env.enumRaises then Except.error ()
  else
    match fill_choice sim options value with
    | some i => if env.clickRaises i then Except.error () else Except.ok true
    | none => Except.ok false

/-- `fill_radio_field` as the caller sees it: the outer `except` (lines
208-210) turns any escaped exception into False, so the call never raises. -/
def fill_radio_field_exc (sim : String → String → Rat) (env : ChoiceEnv)
    (options : List String) (value : String) : Except Unit Bool :=
  match radio_body sim env options value with
  | Except.ok b => Except.ok b
  | Except.error _ => Except.ok false

/-- Driver behaviour while filling a dropdown: additionally the click that
opens the listbox may raise. -/
structure DropdownEnv where
  openRaises : Bool
  enumRaises : Bool
  clickRaises : Nat → Bool

/-- Body of `fill_dropdown_field` inside its outer `try` (lines 214-268):
open the control, enumerate the globally queried options, run the same
four-stage selection, click the chosen option. -/
def dropdown_body (sim : String → String → Rat) (env : DropdownEnv)
    (options : List String) (value : String) : Except Unit Bool :=
  if env.openRaises then Except.error ()
  else if env.enumRaises then Except.error ()
  else
    match fill_choice sim options value with
    | some i => if env.clickRaises i then Except.error () else Except.ok true
    | none => Except.ok false

/-- `fill_dropdown_field` as the caller sees it (outer `except`, lines
269-271). -/
def fill_dropdown_field_exc (sim : String → String → Rat) (env : DropdownEnv)
    (options : List String) (value : String) : Except Unit Bool :=
  match dropdown_body sim env options value with
  | Except.ok b => Except.ok b
  | Except.error _ => Except.ok false

/-- `fill_date_field` as an exception-transparent computation. -/
def fill_date_field_exc (env : DateEnv) (date_str : String) :
    Except Unit Bool :=
  match date_body env date_str with
  | Except.ok r => Except.ok r.1
  | Except.error _ => Except.ok false

/-- `fill_text_field` as an exception-transparent computation. -/
def fill_text_field_exc (env : TextEnv) (value : String) : Except Unit Bool :=
  match text_body env value with
  | Except.ok r => Except.ok r.1
  | Except.error _ => Except.ok false

/-- Claim C8: every fill strategy is total with result type bool — whatever
the driver does, each strategy's whole body sits inside a `try` whose
handler returns False, so the caller always receives an ordinary boolean and
never an exception. -/
theorem strategies_total (denv : DateEnv) (date_str : String)
    (sim : String → String → Rat) (cenv : ChoiceEnv) (dpenv : DropdownEnv)
    (tenv : TextEnv) (options : List String) (value : String) :
    (∃ b, fill_date_field_exc denv date_str = Except.ok b) ∧
    (∃ b, fill_radio_field_exc sim cenv options value = Except.ok b) ∧
    (∃ b, fill_dropdown_field_exc sim dpenv options value = Except.ok b) ∧
    (∃ b, fill_text_field_exc tenv value = Except.ok b) := by
  refine ⟨?_, ?_, ?_, ?_⟩
  · cases hb : date_body denv date_str with
    | ok r => exact ⟨r.1, by simp [fill_date_field_exc, hb]⟩
    | error e => exact ⟨false, by simp [fill_date_field_exc, hb]⟩
  · cases hb : radio_body sim cenv options value with
    | ok b => exact ⟨b, by simp [fill_radio_field_exc, hb]⟩
    | error e => exact ⟨false, by simp [fill_radio_field_exc, hb]⟩
  · cases hb : dropdown_body sim dpenv options value with
    | ok b => exact ⟨b, by simp [fill_dropdown_field_exc, hb]⟩
    | error e => exact ⟨false, by simp [fill_dropdown_field_exc, hb]⟩
  · cases hb : text_body tenv value with
    | ok r => exact ⟨r.1, by simp [fill_text_field_exc, hb]⟩
    | error e => exact ⟨false, by simp [fill_text_field_exc, hb]⟩

/-! ## Orchestrator fill pass (`fill_form`, lines 345-407) -/

/-- What one loop iteration observes for one question: the matcher's result,
the container lookup's result (`find_field_by_text` catches its own errors
and returns none), whether the un-handled `scrollIntoView` script call at
line 376 raises, and the boolean outcome of the dispatched fill strategy. -/
structure QuestionStep where
  matched : Option String
  containerFound : Option Container
  scrollRaises : Bool
  fillSucceeds : Bool

/-- Per-question outcome as printed by the pass. -/
inductive Outcome
  | noMatch
  | noContainer
  | filled (success : Bool)
deriving DecidableEq

/-- One iteration of the `for question in questions:` loop (lines 357-397).
There is no per-item `try`: the only exception source not contained inside a
helper is the scroll script call, and it propagates. -/
def process_question (q : QuestionStep) : Except Unit Outcome :=
  match q.matched with
  | none => Except.ok Outcome.noMatch
  | some _ =>
    match q.containerFound with
    | none => Except.ok Outcome.noContainer
    | some _ =>
      if q.scrollRaises then Except.error ()
      else Except.ok (Outcome.filled q.fillSucceeds)

/-- The whole loop: the outcomes of the questions actually processed, and
whether an exception escaped to `fill_form`'s outer handler (line 404),
which aborts the remaining iterations. -/
def fill_form_loop : List QuestionStep → List Outcome × Bool
  | [] => ([], false)
  | q :: qs =>
    match process_question q with
    | Except.error _ => ([], true)
    | Except.ok o =>
      ((o :: (fill_form_loop qs).1), (fill_form_loop qs).2)

/-- A plain text-input container. -/
def demoContainer : Container :=
  ⟨false, false, false, false, false, true, false⟩

/-- Claim C7 counterexample: two questions; the first one's scroll script
call raises, and the second question is never processed — the loop body has
no per-item exception containment, so a failure on one question can prevent
the remaining questions from being processed. -/
theorem loop_abort_counterexample :
    ((fill_form_loop
        [⟨some "Full Name", some demoContainer, true, true⟩,
         ⟨some "Birth Date", some demoContainer, false, true⟩]).1).length = 0 ∧
    (fill_form_loop
        [⟨some "Full Name", some demoContainer, true, true⟩,
         ⟨some "Birth Date", some demoContainer, false, true⟩]).2 = true := by
  decide

/-- Claim C7 (amended): lookup, classification and fill failures are
recovered locally (each helper catches its own exceptions and returns a
sentinel) and never stop the pass — as long as no exception escapes a loop
body step itself (such as the scroll script call), every question is
processed, whatever mix of failed outcomes occurs; but such an escaped
exception is caught only at the pass boundary and skips all remaining
questions. -/
theorem loop_contained (qs : List QuestionStep)
    (h : ∀ q ∈ qs, q.scrollRaises = false) :
    (fill_form_loop qs).1.length = qs.length ∧
    (fill_form_loop qs).2 = false := by
  induction qs with
  | nil => exact ⟨rfl, rfl⟩
  | cons q rest ih =>
    have hq : q.scrollRaises = false := h q (List.mem_cons_self _ _)
    have hr := ih (fun p hp => h p (List.mem_cons_of_mem _ hp))
    have hpq : ∃ o, process_question q = Except.ok o := by
      rcases q with ⟨mq, cq, sr, fs⟩
      simp only at hq
      cases mq with
      | none => exact ⟨Outcome.noMatch, rfl⟩
      | some s =>
        cases cq with
        | none => exact ⟨Outcome.noContainer, rfl⟩
        | some c =>
          refine ⟨Outcome.filled fs, ?_⟩
          simp [process_question, hq]
    obtain ⟨o, ho⟩ := hpq
    simp only [fill_form_loop, ho]
    simp [hr.1, hr.2]

/-- A run mixing every locally-recovered failure kind: a success, a question
with no matching field, one whose container is not found, and a fill that
returns False. -/
def demoSteps : List QuestionStep :=
  [⟨some "Full Name", some demoContainer, false, true⟩,
   ⟨none, none, false, true⟩,
   ⟨some "Birth Date", none, false, false⟩,
   ⟨some "Email", some demoContainer, false, false⟩]

theorem loop_contained_witness :
    (∀ q ∈ demoSteps, q.scrollRaises = false) ∧
    ((fill_form_loop demoSteps).1.length = demoSteps.length ∧
      (fill_form_loop demoSteps).2 = false) :=
  ⟨by decide, loop_contained demoSteps (by decide)⟩

end TheBot
